import Mathlib

/-!
Verification of the RPROP weight-update core of Wapiti (`src/rprop.c`).

The per-feature update of `trn_rpropsub` is embedded as a function over exact
rationals; the worker-range arithmetic of `trn_rpropsub` and the iteration
structure of `trn_rprop` are embedded separately.  Machine doubles are
modelled by `ℚ` (exact real arithmetic).
-/

namespace Wapiti

/-- `#define sign(v) ((v) < 0.0 ? -1.0 : ((v) > 0.0 ? 1.0 : 0.0))` from
`rprop.c` line 42. -/
def sign (v : ℚ) : ℚ :=
  if v < 0 then -1 else if v > 0 then 1 else 0

/-- The scalar configuration read by `trn_rpropsub` (lines 77-81):
`stpmin`, `stpmax`, `stpinc`, `stpdec` from `mdl->opt->rprop`, and the L1
weight `rho1` from `mdl->opt->rho1`. -/
structure RpropConfig where
  stpmin : ℚ
  stpmax : ℚ
  stpinc : ℚ
  stpdec : ℚ
  rho1   : ℚ
deriving DecidableEq, Repr

/-- `const bool l1 = rho1 != 0.0;` (line 82). -/
def RpropConfig.l1 (cfg : RpropConfig) : Bool :=
  cfg.rho1 ≠ 0

/-- One feature's slice of the arrays touched by `trn_rpropsub`:
the weight `x = mdl->theta[f]`, the raw gradient `g[f]`, the previous
gradient `gp[f]`, the step size `stp[f]` and the last delta `dlt[f]`. -/
structure FeatState where
  x   : ℚ
  g   : ℚ
  gp  : ℚ
  stp : ℚ
  dlt : ℚ
deriving DecidableEq, Repr

/-- The pseudo-gradient computation of `trn_rpropsub`, lines 92-99:
`pg = g[f]`, then if `l1` an else-if chain projects it into the current
orthant. -/
def pseudoGrad (cfg : RpropConfig) (x g : ℚ) : ℚ :=
  if cfg.l1 then
    if x < 0 then g - cfg.rho1
    else if x > 0 then g + cfg.rho1
    else if g < -cfg.rho1 then g + cfg.rho1
    else if g > cfg.rho1 then g - cfg.rho1
    else 0
  else g

/-- The three branches of the sign-agreement test (lines 104, 110, 114). -/
inductive Branch where
  | agree
  | disagree
  | neutral
deriving DecidableEq, Repr

/-- Which branch the update of a feature in state `s` takes:
`agree` when `gp[f] * pg > 0`, `disagree` when `gp[f] * pg < 0`,
`neutral` otherwise (lines 104, 110, 114). -/
def branchOf (cfg : RpropConfig) (s : FeatState) : Branch :=
  let pg := pseudoGrad cfg s.x s.g
  if s.gp * pg > 0 then .agree
  else if s.gp * pg < 0 then .disagree
  else .neutral

/-- The body of the per-feature loop of `trn_rpropsub` (lines 92-120),
acting on one feature's slice of the arrays. -/
def rpropStep (cfg : RpropConfig) (s : FeatState) : FeatState :=
  let pg := pseudoGrad cfg s.x s.g
  if s.gp * pg > 0 then
    -- agree branch, lines 105-109
    let stp := min (s.stp * cfg.stpinc) cfg.stpmax
    let dlt0 := stp * -(sign s.g)
    let dlt := if cfg.l1 ∧ dlt0 * pg ≥ 0 then 0 else dlt0
    { x := s.x + dlt, g := s.g, gp := s.g, stp := stp, dlt := dlt }
  else if s.gp * pg < 0 then
    -- disagree branch, lines 111-113: revert the step, zero g[f]
    let stp := max (s.stp * cfg.stpdec) cfg.stpmin
    { x := s.x - s.dlt, g := 0, gp := 0, stp := stp, dlt := s.dlt }
  else
    -- neutral branch, lines 115-118
    let dlt0 := s.stp * -(sign pg)
    let dlt := if cfg.l1 ∧ dlt0 * pg ≥ 0 then 0 else dlt0
    { x := s.x + dlt, g := s.g, gp := s.g, stp := s.stp, dlt := dlt }

/-- Refill the gradient slot of a feature's state, modelling the external
gradient provider overwriting `g[f]` at the start of an iteration
(`grd_gradient`, line 152). -/
def feedGrad (s : FeatState) (gn : ℚ) : FeatState :=
  { s with g := gn }

/-- Run successive iterations on one feature: each iteration supplies a
fresh gradient value and then performs one per-feature update. -/
def runIters (cfg : RpropConfig) (s : FeatState) : List ℚ → FeatState
  | [] => s
  | gn :: rest => runIters cfg (rpropStep cfg (feedGrad s gn)) rest

/-- The optimizer-state initialization of `trn_rprop` (lines 131-134):
`gp[f] = 0.0`, `stp[f] = 0.1`; `dlt[f]` and `g[f]` are left uninitialized
(arbitrary parameters here), the weight starts at `x0`. -/
def initState (x0 g0 dlt0 : ℚ) : FeatState :=
  { x := x0, g := g0, gp := 0, stp := 1/10, dlt := dlt0 }

/-- `const size_t from = F * id / cnt;` (line 86), in `size_t` (natural)
arithmetic. -/
def workerFrom (F id cnt : ℕ) : ℕ := F * id / cnt

/-- `const size_t to = F * (id + 1) / cnt;` (line 87). -/
def workerTo (F id cnt : ℕ) : ℕ := F * (id + 1) / cnt

/-- The external events observed by one iteration of the loop of
`trn_rprop` (lines 151-158): the gradient buffer filled by `grd_gradient`,
the value of the stop flag `uit_stop` at the loop condition (line 151) and
after the gradient call (line 153), and the result of `uit_progress`
(line 156). -/
structure IterInput where
  grad          : List ℚ
  stopBefore    : Bool
  stopAfterGrad : Bool
  progressOk    : Bool

/-- `grd_gradient` overwriting the shared gradient buffer `g` (line 152):
each feature's `g` slot is replaced by the fresh gradient value. -/
def feedGrads (ss : List FeatState) (gs : List ℚ) : List FeatState :=
  List.zipWith feedGrad ss gs

/-- The barrier-synchronized update phase (line 155): by the worker-range
partition, every feature receives exactly one `rpropStep`. -/
def updateAll (cfg : RpropConfig) (ss : List FeatState) : List FeatState :=
  ss.map (rpropStep cfg)

/-- The iteration loop of `trn_rprop` (lines 151-158): while the stop flag
is clear and the iteration budget `K` remains, compute the gradient, check
the stop flag again and halt before dispatching the update if it is set,
otherwise run the update phase and consult the progress callback. -/
def trnLoop (cfg : RpropConfig) : ℕ → List FeatState → List IterInput → List FeatState
  | 0, s, _ => s
  | _ + 1, s, [] => s
  | K + 1, s, inp :: rest =>
    if inp.stopBefore then s
    else
      let fed := feedGrads s inp.grad
      if inp.stopAfterGrad then fed
      else
        let upd := updateAll cfg fed
        if inp.progressOk then trnLoop cfg K upd rest else upd

/-! ### Theorems -/

/-- C1: the pseudo-gradient is computed from the raw gradient exactly as
the spec's case list states: `pg = g` when `ρ₁ = 0`, and otherwise the
ordered cases on the sign of `x`, falling back to the gradient's magnitude
relative to `ρ₁` when `x = 0`, with `pg = 0` in the remaining flat region. -/
theorem pseudoGrad_cases (cfg : RpropConfig) (x g : ℚ) :
    (cfg.rho1 = 0 → pseudoGrad cfg x g = g) ∧
    (cfg.rho1 ≠ 0 →
      (x < 0 → pseudoGrad cfg x g = g - cfg.rho1) ∧
      (x > 0 → pseudoGrad cfg x g = g + cfg.rho1) ∧
      (x = 0 → g < -cfg.rho1 → pseudoGrad cfg x g = g + cfg.rho1) ∧
      (x = 0 → ¬g < -cfg.rho1 → g > cfg.rho1 → pseudoGrad cfg x g = g - cfg.rho1) ∧
      (x = 0 → ¬g < -cfg.rho1 → ¬g > cfg.rho1 → pseudoGrad cfg x g = 0)) := by
  unfold pseudoGrad RpropConfig.l1
  constructor
  · intro h
    simp [h]
  · intro h
    refine ⟨fun hx => ?_, fun hx => ?_, fun hx hg => ?_, fun hx hg hg2 => ?_,
      fun hx hg hg2 => ?_⟩ <;> subst_eqs <;> split_ifs <;>
      first | rfl | linarith | simp_all

/-- Witness for C1 at concrete inputs: `ρ₁ = 2` with `x = -1, g = 5` gives
`pg = 5 - 2`, and with `x = 0, g = 1` gives `pg = 0`. -/
theorem pseudoGrad_cases_witness :
    pseudoGrad ⟨1/1000000, 50, 6/5, 1/2, 2⟩ (-1) 5 = 5 - 2 ∧
    pseudoGrad ⟨1/1000000, 50, 6/5, 1/2, 2⟩ 0 1 = 0 := by
  constructor
  · exact ((pseudoGrad_cases ⟨1/1000000, 50, 6/5, 1/2, 2⟩ (-1) 5).2
      (by norm_num)).1 (by norm_num)
  · exact ((pseudoGrad_cases ⟨1/1000000, 50, 6/5, 1/2, 2⟩ 0 1).2
      (by norm_num)).2.2.2.2 rfl (by norm_num) (by norm_num)

/-- C2: with `F = W = 1`, `x₀ = 0`, `stp₀ = 0.1`, bounds `[1e-6, 50]`,
factors `1.2` and `0.5`, `ρ₁ = 0`, `gp₀ = 0`, feeding gradients
`1, 1, -1` over three iterations yields `x = -0.10, stp = 0.10, gp = 1`;
then `x = -0.22, stp = 0.12, gp = 1`; then `x = -0.10, stp = 0.06, gp = 0`,
whatever the uninitialized values `g₀`, `dlt₀` were. -/
theorem rprop_trace_noL1 (g0 dlt0 : ℚ) :
    ((runIters ⟨1/1000000, 50, 6/5, 1/2, 0⟩ (initState 0 g0 dlt0) [1]).x = -(1/10) ∧
     (runIters ⟨1/1000000, 50, 6/5, 1/2, 0⟩ (initState 0 g0 dlt0) [1]).stp = 1/10 ∧
     (runIters ⟨1/1000000, 50, 6/5, 1/2, 0⟩ (initState 0 g0 dlt0) [1]).gp = 1) ∧
    ((runIters ⟨1/1000000, 50, 6/5, 1/2, 0⟩ (initState 0 g0 dlt0) [1, 1]).x = -(11/50) ∧
     (runIters ⟨1/1000000, 50, 6/5, 1/2, 0⟩ (initState 0 g0 dlt0) [1, 1]).stp = 3/25 ∧
     (runIters ⟨1/1000000, 50, 6/5, 1/2, 0⟩ (initState 0 g0 dlt0) [1, 1]).gp = 1) ∧
    ((runIters ⟨1/1000000, 50, 6/5, 1/2, 0⟩ (initState 0 g0 dlt0) [1, 1, -1]).x = -(1/10) ∧
     (runIters ⟨1/1000000, 50, 6/5, 1/2, 0⟩ (initState 0 g0 dlt0) [1, 1, -1]).stp = 3/50 ∧
     (runIters ⟨1/1000000, 50, 6/5, 1/2, 0⟩ (initState 0 g0 dlt0) [1, 1, -1]).gp = 0) := by
  norm_num [runIters, rpropStep, feedGrad, initState, pseudoGrad, sign, RpropConfig.l1]

/-- One per-feature update keeps the step size inside `[stpmin, stpmax]`
when the configuration satisfies the spec's constraints. -/
theorem stp_bound_step (cfg : RpropConfig) (s : FeatState)
    (h0 : 0 ≤ cfg.stpmin) (hmm : cfg.stpmin ≤ cfg.stpmax)
    (hinc : 1 ≤ cfg.stpinc) (hdec : cfg.stpdec ≤ 1)
    (hlo : cfg.stpmin ≤ s.stp) (hhi : s.stp ≤ cfg.stpmax) :
    cfg.stpmin ≤ (rpropStep cfg s).stp ∧ (rpropStep cfg s).stp ≤ cfg.stpmax := by
  have hs0 : (0 : ℚ) ≤ s.stp := le_trans h0 hlo
  unfold rpropStep
  dsimp only
  split_ifs with hgt hgu hlt hgu2
  · exact ⟨le_min (le_trans hlo (le_mul_of_one_le_right hs0 hinc)) hmm, min_le_right _ _⟩
  · exact ⟨le_min (le_trans hlo (le_mul_of_one_le_right hs0 hinc)) hmm, min_le_right _ _⟩
  · exact ⟨le_max_right _ _, max_le (le_trans (mul_le_of_le_one_right hs0 hdec) hhi) hmm⟩
  · exact ⟨hlo, hhi⟩
  · exact ⟨hlo, hhi⟩

/-- Any run of updates keeps the step size inside `[stpmin, stpmax]`. -/
theorem stp_bound_runIters (cfg : RpropConfig)
    (h0 : 0 ≤ cfg.stpmin) (hmm : cfg.stpmin ≤ cfg.stpmax)
    (hinc : 1 ≤ cfg.stpinc) (hdec : cfg.stpdec ≤ 1) :
    ∀ (gs : List ℚ) (s : FeatState), cfg.stpmin ≤ s.stp → s.stp ≤ cfg.stpmax →
      cfg.stpmin ≤ (runIters cfg s gs).stp ∧ (runIters cfg s gs).stp ≤ cfg.stpmax
  | [], _, hlo, hhi => ⟨hlo, hhi⟩
  | gn :: rest, s, hlo, hhi => by
    have h := stp_bound_step cfg (feedGrad s gn) h0 hmm hinc hdec hlo hhi
    exact stp_bound_runIters cfg h0 hmm hinc hdec rest _ h.1 h.2

/-- C3: starting from the initialized state (`stp = 0.1`), after any
sequence of per-feature updates the step size stays within
`[stpmin, stpmax]`, the spec's configuration constraints (`stpinc ≥ 1`,
`stpdec ≤ 1`, `0 ≤ stpmin`, and the bounds bracketing the initial `0.1`)
being assumed. -/
theorem stp_bound_invariant (cfg : RpropConfig) (x0 g0 dlt0 : ℚ) (gs : List ℚ)
    (h0 : 0 ≤ cfg.stpmin) (hlo : cfg.stpmin ≤ 1/10) (hhi : (1 : ℚ)/10 ≤ cfg.stpmax)
    (hinc : 1 ≤ cfg.stpinc) (hdec : cfg.stpdec ≤ 1) :
    cfg.stpmin ≤ (runIters cfg (initState x0 g0 dlt0) gs).stp ∧
      (runIters cfg (initState x0 g0 dlt0) gs).stp ≤ cfg.stpmax :=
  stp_bound_runIters cfg h0 (le_trans hlo hhi) hinc hdec gs _ hlo hhi

/-- Witness for C3: the concrete configuration of the trace keeps
`stp ∈ [1e-6, 50]` across the three-iteration run. -/
theorem stp_bound_invariant_witness :
    (1 : ℚ)/1000000 ≤
      (runIters ⟨1/1000000, 50, 6/5, 1/2, 0⟩ (initState 0 0 0) [1, 1, -1]).stp ∧
    (runIters ⟨1/1000000, 50, 6/5, 1/2, 0⟩ (initState 0 0 0) [1, 1, -1]).stp ≤ 50 :=
  stp_bound_invariant ⟨1/1000000, 50, 6/5, 1/2, 0⟩ 0 0 0 [1, 1, -1]
    (by norm_num) (by norm_num) (by norm_num) (by norm_num) (by norm_num)

/-- Two distinct worker ranges cannot both contain a feature index. -/
theorem worker_ranges_disjoint_aux {F W n id1 id2 : ℕ} (hW : 0 < W)
    (h12 : id1 < id2) (hto : n < workerTo F id1 W)
    (hfrom : workerFrom F id2 W ≤ n) : False := by
  unfold workerTo at hto
  unfold workerFrom at hfrom
  have h1 : (n + 1) * W ≤ F * (id1 + 1) := (Nat.le_div_iff_mul_le hW).mp hto
  have h2 : F * id2 < (n + 1) * W :=
    (Nat.div_lt_iff_lt_mul hW).mp (Nat.lt_succ_of_le hfrom)
  have h3 : F * (id1 + 1) ≤ F * id2 := Nat.mul_le_mul_left F h12
  omega

/-- C4: for every `F` and `W ≥ 1`, the worker ranges
`[F*id/W, F*(id+1)/W)` computed by the partial weight update cover
`[0, F)` exactly: each feature index below `F` lies in the range of
exactly one worker id below `W`. -/
theorem worker_ranges_partition (F W n : ℕ) (hW : 1 ≤ W) (hn : n < F) :
    ∃! id, id < W ∧ workerFrom F id W ≤ n ∧ n < workerTo F id W := by
  have hF : 0 < F := Nat.lt_of_le_of_lt (Nat.zero_le n) hn
  have hW0 : 0 < W := hW
  set m := (n + 1) * W - 1 with hm
  have hprod : (n + 1) * W = n * W + W := by ring
  have hmW : m + 1 = (n + 1) * W := Nat.sub_add_cancel (by omega)
  have hidW : m / F < W := by
    rw [Nat.div_lt_iff_lt_mul hF]
    calc m < m + 1 := Nat.lt_succ_self m
      _ = (n + 1) * W := hmW
      _ ≤ F * W := Nat.mul_le_mul_right W hn
      _ = W * F := Nat.mul_comm F W
  have hfrom : workerFrom F (m / F) W ≤ n := by
    unfold workerFrom
    have h1 : F * (m / F) ≤ m := by
      calc F * (m / F) = m / F * F := Nat.mul_comm _ _
        _ ≤ m := Nat.div_mul_le_self m F
    have h2 : F * (m / F) / W ≤ m / W := Nat.div_le_div_right h1
    have hm2 : m = W - 1 + n * W := by omega
    have h3 : m / W = n := by
      rw [hm2, Nat.add_mul_div_right _ _ hW0,
        Nat.div_eq_of_lt (Nat.sub_lt hW0 Nat.one_pos), Nat.zero_add]
    exact h3 ▸ h2
  have hto : n < workerTo F (m / F) W := by
    unfold workerTo
    have hdm : F * (m / F) + m % F = m := Nat.div_add_mod m F
    have hmod : m % F < F := Nat.mod_lt m hF
    have hexp : F * (m / F + 1) = F * (m / F) + F := by ring
    have h4 : (n + 1) * W ≤ F * (m / F + 1) := by omega
    exact Nat.lt_of_lt_of_le (Nat.lt_succ_self n) ((Nat.le_div_iff_mul_le hW0).mpr h4)
  refine ⟨m / F, ⟨hidW, hfrom, hto⟩, ?_⟩
  rintro y ⟨-, hyfrom, hyto⟩
  by_contra hne
  rcases Nat.lt_or_ge y (m / F) with hlt | hge
  · exact worker_ranges_disjoint_aux hW0 hlt hyto hfrom
  · exact worker_ranges_disjoint_aux hW0 (lt_of_le_of_ne hge (Ne.symm hne)) hto hyfrom

/-- Witness for C4: with `F = 7`, `W = 3`, feature `5` lies in exactly one
worker range. -/
theorem worker_ranges_partition_witness :
    ∃! id, id < 3 ∧ workerFrom 7 id 3 ≤ 5 ∧ 5 < workerTo 7 id 3 :=
  worker_ranges_partition 7 3 5 (by norm_num) (by norm_num)

/-- The classical RPROP per-feature update rule, written from the spec's
description of the no-L1 reduction: the sign comparison and the step use
the raw gradient directly, the step size is adapted within its bounds, and
no orthant projection or delta-zeroing guard exists. -/
def classicRpropStep (cfg : RpropConfig) (s : FeatState) : FeatState :=
  if s.gp * s.g > 0 then
    let stp := min (s.stp * cfg.stpinc) cfg.stpmax
    let dlt := stp * -(sign s.g)
    { x := s.x + dlt, g := s.g, gp := s.g, stp := stp, dlt := dlt }
  else if s.gp * s.g < 0 then
    let stp := max (s.stp * cfg.stpdec) cfg.stpmin
    { x := s.x - s.dlt, g := 0, gp := 0, stp := stp, dlt := s.dlt }
  else
    let dlt := s.stp * -(sign s.g)
    { x := s.x + dlt, g := s.g, gp := s.g, stp := s.stp, dlt := dlt }

/-- C5: with `ρ₁ = 0` the per-feature update coincides, on every input
state, with the classical RPROP rule (`pg = g`, no orthant projection, no
delta-zeroing guard). -/
theorem noL1_reduction (cfg : RpropConfig) (s : FeatState) (h : cfg.rho1 = 0) :
    rpropStep cfg s = classicRpropStep cfg s := by
  simp [rpropStep, classicRpropStep, pseudoGrad, RpropConfig.l1, h]

/-- Witness for C5 at a concrete configuration and state. -/
theorem noL1_reduction_witness :
    rpropStep ⟨1/1000000, 50, 6/5, 1/2, 0⟩ ⟨2, 3, 1, 1/10, 0⟩ =
      classicRpropStep ⟨1/1000000, 50, 6/5, 1/2, 0⟩ ⟨2, 3, 1, 1/10, 0⟩ :=
  noL1_reduction ⟨1/1000000, 50, 6/5, 1/2, 0⟩ ⟨2, 3, 1, 1/10, 0⟩ rfl

/-- In the disagree branch the update reverts `x` by `dlt`, zeroes the raw
gradient and the carried gradient, and leaves `dlt` untouched. -/
theorem rpropStep_disagree_eqs (cfg : RpropConfig) (s : FeatState)
    (h : branchOf cfg s = .disagree) :
    (rpropStep cfg s).x = s.x - s.dlt ∧ (rpropStep cfg s).g = 0 ∧
    (rpropStep cfg s).gp = 0 ∧ (rpropStep cfg s).dlt = s.dlt := by
  unfold branchOf at h
  unfold rpropStep
  dsimp only at h ⊢
  split_ifs at h ⊢
  all_goals simp_all

/-- In the agree and neutral branches the applied delta is recorded in the
`dlt` slot and added onto `x`. -/
theorem rpropStep_not_disagree_x (cfg : RpropConfig) (s : FeatState)
    (h : branchOf cfg s ≠ .disagree) :
    (rpropStep cfg s).x = s.x + (rpropStep cfg s).dlt := by
  unfold branchOf at h
  unfold rpropStep
  dsimp only at h ⊢
  split_ifs at h ⊢ <;> simp_all

/-- C6: when an update of a feature takes the disagree branch and the
previous update of that feature took the agree or neutral branch, the
resulting weight equals the weight held immediately before that previous
update applied its delta: subtracting `dlt` exactly undoes the last
applied step. -/
theorem disagree_reverts_exactly (cfg : RpropConfig) (s : FeatState) (g1 : ℚ)
    (h1 : branchOf cfg s ≠ .disagree)
    (h2 : branchOf cfg (feedGrad (rpropStep cfg s) g1) = .disagree) :
    (rpropStep cfg (feedGrad (rpropStep cfg s) g1)).x = s.x := by
  have e1 := rpropStep_not_disagree_x cfg s h1
  have e2 := (rpropStep_disagree_eqs cfg (feedGrad (rpropStep cfg s) g1) h2).1
  simp only [feedGrad] at e2 ⊢
  rw [e2, e1]
  ring

/-- Witness for C6: the disagree step of the concrete trace restores
`x = -0.10`. -/
theorem disagree_reverts_exactly_witness :
    (rpropStep ⟨1/1000000, 50, 6/5, 1/2, 0⟩
      (feedGrad (rpropStep ⟨1/1000000, 50, 6/5, 1/2, 0⟩
        ⟨-(1/10), 1, 1, 1/10, -(1/10)⟩) (-1))).x = -(1/10) :=
  disagree_reverts_exactly ⟨1/1000000, 50, 6/5, 1/2, 0⟩
    ⟨-(1/10), 1, 1, 1/10, -(1/10)⟩ (-1)
    (by norm_num [branchOf, pseudoGrad, RpropConfig.l1]; decide)
    (by norm_num [branchOf, feedGrad, rpropStep, pseudoGrad, sign, RpropConfig.l1])

/-- C7: with L1 enabled, whenever the tentative delta of the agree or
neutral branch satisfies `dlt·pg ≥ 0` the applied delta is forced to zero,
leaving the weight unchanged; and there is a concrete input with `x > 0`
whose unconstrained step would push the weight negative while satisfying
the guard condition, on which the applied update is zero. -/
theorem l1_orthant_guard (cfg : RpropConfig) (s : FeatState) :
    (cfg.rho1 ≠ 0 → branchOf cfg s = .agree →
      min (s.stp * cfg.stpinc) cfg.stpmax * -(sign s.g) * pseudoGrad cfg s.x s.g ≥ 0 →
      (rpropStep cfg s).dlt = 0 ∧ (rpropStep cfg s).x = s.x) ∧
    (cfg.rho1 ≠ 0 → branchOf cfg s = .neutral →
      s.stp * -(sign (pseudoGrad cfg s.x s.g)) * pseudoGrad cfg s.x s.g ≥ 0 →
      (rpropStep cfg s).dlt = 0 ∧ (rpropStep cfg s).x = s.x) ∧
    (∃ (cfg1 : RpropConfig) (s1 : FeatState),
      cfg1.rho1 ≠ 0 ∧ s1.x > 0 ∧
      s1.x + min (s1.stp * cfg1.stpinc) cfg1.stpmax * -(sign s1.g) < 0 ∧
      min (s1.stp * cfg1.stpinc) cfg1.stpmax * -(sign s1.g) *
        pseudoGrad cfg1 s1.x s1.g ≥ 0 ∧
      (rpropStep cfg1 s1).x = s1.x ∧ (rpropStep cfg1 s1).dlt = 0) := by
  refine ⟨?_, ?_, ?_⟩
  · intro h hb hg
    have hl : cfg.l1 = true := by simp [RpropConfig.l1, h]
    unfold branchOf at hb
    unfold rpropStep
    dsimp only at hb ⊢
    split_ifs at hb ⊢ <;> simp_all
  · intro h hb hg
    have hl : cfg.l1 = true := by simp [RpropConfig.l1, h]
    unfold branchOf at hb
    unfold rpropStep
    dsimp only at hb ⊢
    split_ifs at hb ⊢ <;> simp_all
  · refine ⟨⟨1/1000000, 50, 6/5, 1/2, -5⟩, ⟨1/2, 1, -1, 1, 0⟩, ?_, ?_, ?_, ?_, ?_, ?_⟩
    all_goals norm_num [rpropStep, pseudoGrad, sign, RpropConfig.l1]

/-- Witness for C7: the guard of the agree branch zeroes the update on the
concrete input of the existential part. -/
theorem l1_orthant_guard_witness :
    (rpropStep ⟨1/1000000, 50, 6/5, 1/2, -5⟩ ⟨1/2, 1, -1, 1, 0⟩).dlt = 0 ∧
    (rpropStep ⟨1/1000000, 50, 6/5, 1/2, -5⟩ ⟨1/2, 1, -1, 1, 0⟩).x = 1/2 :=
  (l1_orthant_guard ⟨1/1000000, 50, 6/5, 1/2, -5⟩ ⟨1/2, 1, -1, 1, 0⟩).1
    (by norm_num) (by norm_num [branchOf, pseudoGrad, RpropConfig.l1])
    (by norm_num [pseudoGrad, sign, RpropConfig.l1])

/-- C8: every per-feature update ends with `gp` equal to the raw gradient
slot `g` as it stands after the update: the disagree branch zeroes `g`
first, every other branch leaves `g` untouched, and `gp` copies that
value — never the pseudo-gradient. -/
theorem gp_carries_raw_gradient (cfg : RpropConfig) (s : FeatState) :
    (rpropStep cfg s).gp = (rpropStep cfg s).g ∧
    (branchOf cfg s = .disagree → (rpropStep cfg s).g = 0) ∧
    (branchOf cfg s ≠ .disagree → (rpropStep cfg s).g = s.g) := by
  unfold branchOf rpropStep
  dsimp only
  split_ifs <;> simp_all

/-- Witness for C8: on a neutral-branch input the update keeps `g = 1` and
copies it into `gp`. -/
theorem gp_carries_raw_gradient_witness :
    (rpropStep ⟨1/1000000, 50, 6/5, 1/2, 0⟩ ⟨0, 1, 0, 1/10, 0⟩).gp =
      (rpropStep ⟨1/1000000, 50, 6/5, 1/2, 0⟩ ⟨0, 1, 0, 1/10, 0⟩).g ∧
    (rpropStep ⟨1/1000000, 50, 6/5, 1/2, 0⟩ ⟨0, 1, 0, 1/10, 0⟩).g = 1 :=
  ⟨(gp_carries_raw_gradient ⟨1/1000000, 50, 6/5, 1/2, 0⟩ ⟨0, 1, 0, 1/10, 0⟩).1,
    (gp_carries_raw_gradient ⟨1/1000000, 50, 6/5, 1/2, 0⟩ ⟨0, 1, 0, 1/10, 0⟩).2.2
      (by norm_num [branchOf, pseudoGrad, RpropConfig.l1]; decide)⟩

/-- Refilling the gradient buffer leaves the weights and the optimizer
state untouched. -/
theorem feedGrads_map_proj (ss : List FeatState) (gs : List ℚ)
    (hlen : gs.length = ss.length) :
    (feedGrads ss gs).map FeatState.x = ss.map FeatState.x ∧
    (feedGrads ss gs).map FeatState.gp = ss.map FeatState.gp ∧
    (feedGrads ss gs).map FeatState.stp = ss.map FeatState.stp ∧
    (feedGrads ss gs).map FeatState.dlt = ss.map FeatState.dlt := by
  induction ss generalizing gs with
  | nil => simp [feedGrads]
  | cons s ss ih =>
    cases gs with
    | nil => simp at hlen
    | cons gn gs =>
      have ihr := ih gs (by simpa using hlen)
      simp only [feedGrads, List.zipWith_cons_cons, List.map_cons, feedGrad] at ihr ⊢
      exact ⟨by rw [ihr.1], by rw [ihr.2.1], by rw [ihr.2.2.1], by rw [ihr.2.2.2]⟩

/-- C9: in an iteration of the training loop, when the stop flag is found
set right after the gradient computation, the loop halts before
dispatching the update phase: the weight vector and the optimizer state
(`gp`, `stp`, `dlt`) are exactly as they were before the iteration. -/
theorem stop_after_gradient_discards (cfg : RpropConfig) (K : ℕ)
    (s : List FeatState) (inp : IterInput) (rest : List IterInput)
    (hb : inp.stopBefore = false) (ha : inp.stopAfterGrad = true)
    (hlen : inp.grad.length = s.length) :
    (trnLoop cfg (K + 1) s (inp :: rest)).map FeatState.x = s.map FeatState.x ∧
    (trnLoop cfg (K + 1) s (inp :: rest)).map FeatState.gp = s.map FeatState.gp ∧
    (trnLoop cfg (K + 1) s (inp :: rest)).map FeatState.stp = s.map FeatState.stp ∧
    (trnLoop cfg (K + 1) s (inp :: rest)).map FeatState.dlt = s.map FeatState.dlt := by
  have h := feedGrads_map_proj s inp.grad hlen
  simp only [trnLoop, hb, ha, Bool.false_eq_true, if_false, if_true]
  exact h

/-- Witness for C9 at a concrete one-feature state and a stop request
arriving after the gradient call. -/
theorem stop_after_gradient_discards_witness :
    (trnLoop ⟨1/1000000, 50, 6/5, 1/2, 0⟩ 1 [⟨0, 0, 0, 1/10, 0⟩]
        [⟨[5], false, true, true⟩]).map FeatState.x =
      [⟨0, 0, 0, 1/10, 0⟩].map FeatState.x ∧
    (trnLoop ⟨1/1000000, 50, 6/5, 1/2, 0⟩ 1 [⟨0, 0, 0, 1/10, 0⟩]
        [⟨[5], false, true, true⟩]).map FeatState.stp =
      [⟨0, 0, 0, 1/10, 0⟩].map FeatState.stp :=
  ⟨(stop_after_gradient_discards ⟨1/1000000, 50, 6/5, 1/2, 0⟩ 0
      [⟨0, 0, 0, 1/10, 0⟩] ⟨[5], false, true, true⟩ [] rfl rfl rfl).1,
    (stop_after_gradient_discards ⟨1/1000000, 50, 6/5, 1/2, 0⟩ 0
      [⟨0, 0, 0, 1/10, 0⟩] ⟨[5], false, true, true⟩ [] rfl rfl rfl).2.2.1⟩

/-- C10: a disagree step zeroes the carried gradient and leaves `dlt`
unchanged, and whatever gradient the next iteration supplies for that
feature, the next update takes the neutral branch — two consecutive
disagree branches are impossible. -/
theorem no_consecutive_disagree (cfg : RpropConfig) (s : FeatState) (g1 : ℚ)
    (h : branchOf cfg s = .disagree) :
    (rpropStep cfg s).gp = 0 ∧ (rpropStep cfg s).dlt = s.dlt ∧
    branchOf cfg (feedGrad (rpropStep cfg s) g1) = .neutral := by
  have e := rpropStep_disagree_eqs cfg s h
  refine ⟨e.2.2.1, e.2.2.2, ?_⟩
  simp [branchOf, feedGrad, e.2.2.1]

/-- Witness for C10: the disagree step of the concrete trace is followed
by a neutral step. -/
theorem no_consecutive_disagree_witness :
    (rpropStep ⟨1/1000000, 50, 6/5, 1/2, 0⟩ ⟨-(11/50), -1, 1, 3/25, -(3/25)⟩).gp = 0 ∧
    (rpropStep ⟨1/1000000, 50, 6/5, 1/2, 0⟩ ⟨-(11/50), -1, 1, 3/25, -(3/25)⟩).dlt =
      -(3/25) ∧
    branchOf ⟨1/1000000, 50, 6/5, 1/2, 0⟩
      (feedGrad (rpropStep ⟨1/1000000, 50, 6/5, 1/2, 0⟩
        ⟨-(11/50), -1, 1, 3/25, -(3/25)⟩) 7) = .neutral :=
  no_consecutive_disagree ⟨1/1000000, 50, 6/5, 1/2, 0⟩
    ⟨-(11/50), -1, 1, 3/25, -(3/25)⟩ 7
    (by norm_num [branchOf, pseudoGrad, RpropConfig.l1])

end Wapiti
